import Mathlib

/-!
Verification of the resource-decompression shim and the 68K emulator glue of
the resource_dasm repository.  The definitions below are shallow embeddings of
the C++ sources:

* `decompress_resource`, `buildCandidates`, `tryCandidates` embed
  `decompress_resource` from `src/ResourceCompression.cc`.
* `shim_syscall_handler` embeds the syscall handler lambda installed by the
  shim (BlockMove / GetTrapAddress), `decode_a_trap` the A-line trap decode
  shared with `src/m68kexec.cc`.
* `setup_m68k_decompressor` embeds the activation-frame construction for 68K
  decompressors.
* `set_ccr_flags_integer_add` models the condition-code helper declared in
  `src/Emulators/M68KEmulator.hh`.

Machine integers are modelled as `Nat` with explicit reductions modulo
`2 ^ 32` (or the operand width) where the C++ types would truncate.  Emulated
memory is modelled as a total byte map `Nat → Nat`; C++ exceptions are
modelled as `Option String` (the raised message) or `Except String`.
-/

namespace ResourceDasm

/-- Big-endian 16-bit read from a byte list at an offset, as done by the
`be_uint16_t` views over `res->data` in ResourceCompression.cc.  Bytes past
the end read as 0; all uses are guarded by length checks mirroring the
source. -/
def be16 (data : List Nat) (off : Nat) : Nat :=
  data.getD off 0 * 256 + data.getD (off + 1) 0

/-- Big-endian 32-bit read from a byte list at an offset (`be_uint32_t`). -/
def be32 (data : List Nat) (off : Nat) : Nat :=
  ((data.getD off 0 * 256 + data.getD (off + 1) 0) * 256 +
      data.getD (off + 2) 0) * 256 + data.getD (off + 3) 0

/-- Reinterpret a 16-bit unsigned value as the signed `int16_t` it encodes
(two's complement), as the `be_int16_t dcmp_resource_id` field does. -/
def asI16 (v : Nat) : Int :=
  if v < 0x8000 then (v : Int) else (v : Int) - 0x10000

/-- Resource attribute flags relevant to `decompress_resource`
(ResourceFlag::FLAG_COMPRESSED, FLAG_DECOMPRESSION_FAILED,
FLAG_DECOMPRESSED), modelled as individual booleans. -/
structure ResFlags where
  compressed : Bool
  decompressionFailed : Bool
  decompressed : Bool
deriving DecidableEq, Repr

/-- A resource as seen by `decompress_resource`: its flag bits and its data
bytes. -/
structure Resource where
  flags : ResFlags
  data : List Nat
deriving DecidableEq, Repr

/-- The bits of the `decompress_flags` argument that `decompress_resource`
consults (DecompressionFlag::RETRY, DISABLED, SKIP_FILE_DCMP, SKIP_FILE_NCMP,
SKIP_INTERNAL, SKIP_SYSTEM_DCMP, SKIP_SYSTEM_NCMP), modelled as individual
booleans.  The verbosity/trace bits only affect stderr logging and are not
modelled. -/
structure DecompressionFlags where
  retry : Bool
  disabled : Bool
  skipFileDcmp : Bool
  skipFileNcmp : Bool
  skipInternal : Bool
  skipSystemDcmp : Bool
  skipSystemNcmp : Bool
deriving DecidableEq, Repr

/-- The five kinds of decompressor candidate that `decompress_resource` can
place in its `dcmp_resources` vector, in the source's comment order.  The
`internal` candidate is the `nullptr` entry of the vector. -/
inductive Candidate where
  | fileDcmp
  | fileNcmp
  | internal
  | systemDcmp
  | systemNcmp
deriving DecidableEq, Repr

/-- Availability of `dcmp`/`ncmp` resources with the requested id in the
caller's context ResourceFile (`context_rf->get_resource` succeeding rather
than throwing `out_of_range`). -/
structure FileCtx where
  hasDcmp : Bool
  hasNcmp : Bool
deriving DecidableEq, Repr

/-- The environment a single `decompress_resource` call runs in: whether a
context ResourceFile was passed and which lookups succeed in it, whether the
system-shipped dcmp/ncmp binaries load (`get_system_decompressor` not
throwing `cannot_open_file`), and the outcome of attempting decompression
with each candidate (the body of the big `try` block: either the decompressed
bytes, or the message of the exception that aborted the attempt). -/
structure DecompEnv where
  ctx : Option FileCtx
  systemDcmpAvailable : Bool
  systemNcmpAvailable : Bool
  attempts : Candidate → Except String (List Nat)

/-- Candidate-list construction, embedding lines 146-175 of
ResourceCompression.cc: each category is appended only when its skip flag is
clear and the candidate is actually obtainable; the internal implementation
is offered exactly for ids 0..3. -/
def buildCandidates (env : DecompEnv) (flags : DecompressionFlags)
    (rid : Int) : List Candidate :=
  let acc : List Candidate := []
  let acc :=
    match env.ctx with
    | some fc =>
        let acc :=
          if flags.skipFileDcmp then acc
          else if fc.hasDcmp then acc ++ [Candidate.fileDcmp] else acc
        if flags.skipFileNcmp then acc
        else if fc.hasNcmp then acc ++ [Candidate.fileNcmp] else acc
    | none => acc
  let acc :=
    if flags.skipInternal then acc
    else if 0 ≤ rid ∧ rid ≤ 3 then acc ++ [Candidate.internal] else acc
  let acc :=
    if flags.skipSystemDcmp then acc
    else if env.systemDcmpAvailable then acc ++ [Candidate.systemDcmp] else acc
  if flags.skipSystemNcmp then acc
  else if env.systemNcmpAvailable then acc ++ [Candidate.systemNcmp] else acc

/-- The candidate loop of `decompress_resource` (lines 189-580): each
attempt either returns the decompressed bytes, or its exception is caught and
the loop moves on; when the loop ends with no success the shim throws the
fresh error "no decompressor succeeded". -/
def tryCandidates (attempts : Candidate → Except String (List Nat)) :
    List Candidate → Except String (List Nat)
  | [] => Except.error "no decompressor succeeded"
  | c :: rest =>
      match attempts c with
      | Except.ok d => Except.ok d
      | Except.error _ => tryCandidates attempts rest

/-- Modelled from the spec: the `CompressedResourceHeader` union layout
(section 6 of the spec; the struct lives in ResourceCompression.hh, which is
not among the sources).  Version 9 stores `dcmp_resource_id` as a big-endian
`i16` at byte offset 12; version 8 stores it at offset 14 after the two
single-byte buffer-size fields. -/
def hdrDcmpResourceId (version : Nat) (data : List Nat) : Int :=
  if version = 9 then asI16 (be16 data 12) else asI16 (be16 data 14)

/-- Shallow embedding of `decompress_resource`
(src/ResourceCompression.cc:86-581).  The result pairs the raised exception
message (`none` when the function returns normally) with the state of `res`
at exit; every `throw` site leaves `res` exactly as it was at that point, and
the two mutation sites (internal decompressor success and emulated
decompressor success) are merged into the single success case whose data is
supplied by the attempt oracle. -/
def decompress_resource (env : DecompEnv) (flags : DecompressionFlags)
    (res : Resource) : Option String × Resource :=
  if res.flags.compressed = false then (none, res)
  else if flags.retry = false ∧ res.flags.decompressionFailed = true then
    (none, res)
  else if flags.disabled = true then (none, res)
  else if res.data.length < 16 then
    (some "resource marked as compressed but is too small", res)
  else if ¬ be32 res.data 0 = 0xA89F6572 then
    (none, { res with flags := { res.flags with compressed := false } })
  else if be16 res.data 6 % 2 = 0 then
    (some "resource marked as compressed but does not have compression attribute set", res)
  else if ¬ be16 res.data 4 = 9 ∧ ¬ be16 res.data 4 = 8 then
    (some "compressed resource header version is not 8 or 9", res)
  else if buildCandidates env flags
      (hdrDcmpResourceId (be16 res.data 4) res.data) = [] then
    (some "no decompressors are available for this resource", res)
  else
      match tryCandidates env.attempts
          (buildCandidates env flags
            (hdrDcmpResourceId (be16 res.data 4) res.data)) with
      | Except.error e => (some e, res)
      | Except.ok newData =>
          (none, { res with
                    data := newData,
                    flags := { res.flags with
                                compressed := false,
                                decompressed := true } })

/-- Point write of a big-endian 16-bit value into the byte-map model of
emulated memory (MemoryContext typed access, spec section 4.1; the value is
truncated to 16 bits as `be_uint16_t` assignment would). -/
def write_u16b (m : Nat → Nat) (addr v : Nat) : Nat → Nat :=
  fun x =>
    if x = addr then v / 256 % 256
    else if x = addr + 1 then v % 256
    else m x

/-- Big-endian 16-bit read from the byte-map model of emulated memory. -/
def read_u16b (m : Nat → Nat) (addr : Nat) : Nat :=
  m addr % 256 * 256 + m (addr + 1) % 256

/-- Point write of a big-endian 32-bit value into the byte-map model of
emulated memory. -/
def write_u32b (m : Nat → Nat) (addr v : Nat) : Nat → Nat :=
  fun x =>
    if x = addr then v / 0x1000000 % 256
    else if x = addr + 1 then v / 0x10000 % 256
    else if x = addr + 2 then v / 0x100 % 256
    else if x = addr + 3 then v % 256
    else m x

/-- Big-endian 32-bit read from the byte-map model of emulated memory. -/
def read_u32b (m : Nat → Nat) (addr : Nat) : Nat :=
  ((m addr % 256 * 256 + m (addr + 1) % 256) * 256 +
      m (addr + 2) % 256) * 256 + m (addr + 3) % 256

/-- Bulk copy of `n` bytes from `src` to `dst` in the byte-map model
(MemoryContext::memcpy / host memcpy through `mem->at`).  Destination bytes
take their values from the pre-copy source, which matches the C++ behavior
for the non-overlapping copies the shim performs. -/
def memcpyBytes (m : Nat → Nat) (dst src n : Nat) : Nat → Nat :=
  fun x => if dst ≤ x ∧ x < dst + n then m (src + (x - dst)) else m x

/-- The state the shim's 68K syscall handler touches
(src/ResourceCompression.cc:475-542): the registers it reads or writes
(`D0`, `A0`, `A1`), the emulated memory, the `trap_to_call_stub_addr` cache
(most recent entry first, as an association list), and the address the next
`mem->allocate` call will return.  The allocator itself is not among the
sources and is modelled from the spec as a bump allocator handing out fresh
addresses. -/
structure M68KShimState where
  d0 : Nat
  a0 : Nat
  a1 : Nat
  mem : Nat → Nat
  trapStubs : List (Nat × Nat)
  nextAllocAddr : Nat

/-- Lookup in the `trap_to_call_stub_addr` cache
(`unordered_map::at`, throwing `out_of_range` modelled as `none`). -/
def lookupStub : List (Nat × Nat) → Nat → Option Nat
  | [], _ => none
  | (k, v) :: rest, t => if k = t then some v else lookupStub rest t

/-- The GetTrapAddress adjustment of the requested trap number
(src/ResourceCompression.cc:503-506): numbers above 0x4F other than 0x54 and
0x57 denote toolbox traps and get bit 11 set. -/
def adjustTrapNumber (t : Nat) : Nat :=
  if 0x4F < t ∧ ¬ t = 0x54 ∧ ¬ t = 0x57 then t ||| 0x0800 else t

/-- The syscall handler lambda the shim installs on the 68K emulator
(src/ResourceCompression.cc:476-542).  It decodes the A-line opcode into a
trap number, implements BlockMove (0x2E) and GetTrapAddress (0x46), and
treats every other trap as a logged no-op. -/
def shim_syscall_handler (st : M68KShimState) (opcode : Nat) : M68KShimState :=
  let trap_number :=
    if ¬ opcode &&& 0x0800 = 0 then opcode &&& 0x0BFF else opcode &&& 0x00FF
  if trap_number = 0x002E then
    { st with mem := memcpyBytes st.mem st.a1 st.a0 st.d0, d0 := 0 }
  else if trap_number = 0x0046 then
    let t := adjustTrapNumber (st.d0 &&& 0xFFFF)
    match lookupStub st.trapStubs t with
    | some addr => { st with a0 := addr }
    | none =>
        let addr := st.nextAllocAddr
        let m := write_u16b (write_u16b st.mem addr (0xA000 ||| t))
          (addr + 2) 0x4E75
        { st with
            mem := m,
            trapStubs := (t, addr) :: st.trapStubs,
            nextAllocAddr := st.nextAllocAddr + 4,
            a0 := addr }
  else st

/-- The decoded form of an A-line opcode as both syscall handlers compute it
(src/ResourceCompression.cc:478-488 and src/m68kexec.cc:282-292): the trap
number, the toolbox auto-pop flag, and the OS-trap flag bits. -/
structure TrapDecodeResult where
  number : Nat
  autoPop : Bool
  osFlags : Nat
deriving DecidableEq, Repr

/-- A-line trap decode: bit 11 selects toolbox (number = opcode & 0x0BFF,
auto-pop from bit 10) versus OS (number = opcode & 0x00FF, flags =
`(opcode >> 9) & 3`). -/
def decode_a_trap (opcode : Nat) : TrapDecodeResult :=
  if ¬ opcode &&& 0x0800 = 0 then
    { number := opcode &&& 0x0BFF,
      autoPop := decide (¬ opcode &&& 0x0400 = 0),
      osFlags := 0 }
  else
    { number := opcode &&& 0x00FF,
      autoPop := false,
      osFlags := opcode >>> 9 &&& 3 }

/-- The values `decompress_resource` hands the 68K emulator before running a
dcmp: the memory after the activation frame is written, and the initial `A7`
and `PC`. -/
structure M68KEntrySetup where
  mem : Nat → Nat
  a7 : Nat
  pc : Nat

/-- Construction of the 68K activation frame and entry registers
(src/ResourceCompression.cc:434-460).  `M68KDecompressorInputHeader` is 24
bytes (`return_addr` at offset 0, the 16-byte argument union at offset 4,
`reset_opcode` at offset 20, `unused` at offset 22); the frame sits at the
top of the stack region, `return_addr` is made to point at the frame's own
`reset_opcode` field, and the fields are written in the order the source
writes them.  Stored 32-bit values reduce modulo `2 ^ 32` as the
`be_uint32_t` fields would. -/
def setup_m68k_decompressor (mem0 : Nat → Nat) (stackAddr stackSize : Nat)
    (headerVersion : Nat)
    (inputAddr inputRegionSize outputAddr workingBufferAddr : Nat)
    (codeAddr entryOffset : Nat) : M68KEntrySetup :=
  let frameBase := stackAddr + stackSize - 24
  let m1 := write_u32b mem0 frameBase ((frameBase + 20) % 2 ^ 32)
  let m2 :=
    if headerVersion = 9 then
      write_u32b (write_u32b (write_u32b (write_u32b m1
        (frameBase + 16) ((inputRegionSize - 16) % 2 ^ 32))
        (frameBase + 4) (inputAddr % 2 ^ 32))
        (frameBase + 8) (outputAddr % 2 ^ 32))
        (frameBase + 12) ((inputAddr + 16) % 2 ^ 32)
    else
      write_u32b (write_u32b (write_u32b (write_u32b m1
        (frameBase + 4) ((inputRegionSize - 16) % 2 ^ 32))
        (frameBase + 8) (workingBufferAddr % 2 ^ 32))
        (frameBase + 12) (outputAddr % 2 ^ 32))
        (frameBase + 16) ((inputAddr + 16) % 2 ^ 32)
  let m3 := write_u16b m2 (frameBase + 20) 0x4E70
  let m4 := write_u16b m3 (frameBase + 22) 0x0000
  { mem := m4, a7 := frameBase, pc := (codeAddr + entryOffset) % 2 ^ 32 }

/-- Entry-offset resolution for a 68K dcmp resource
(src/ResourceCompression.cc:263-272): resources shorter than 10 bytes are
rejected; if bytes 4..7 spell ASCII "dcmp" execution starts at offset 0,
otherwise at the big-endian 16-bit value stored at offset 2. -/
def dcmp_entry_offset (data : List Nat) : Except String Nat :=
  if data.length < 10 then
    Except.error "decompressor resource is too short"
  else if data.getD 4 0 = 0x64 ∧ data.getD 5 0 = 0x63 ∧
      data.getD 6 0 = 0x6D ∧ data.getD 7 0 = 0x70 then
    Except.ok 0
  else
    Except.ok (be16 data 2)

/-- The 68K condition-code register flags X, N, Z, V, C. -/
structure CCRFlags where
  x : Bool
  n : Bool
  z : Bool
  v : Bool
  c : Bool
deriving DecidableEq, Repr

/-- Modelled from the spec: `M68KRegisters::set_ccr_flags_integer_add` is
declared in src/Emulators/M68KEmulator.hh but its definition
(M68KEmulator.cc) is not among the sources; this follows the formulas of
spec section 4.2 at operand width `size` bytes (operands and result taken as
`size`-byte unsigned values; `L < 0` at width `w` means the sign bit is set,
i.e. `2 ^ (8 w - 1) ≤ L`).  Returns the width-reduced sum together with the
five flags. -/
def set_ccr_flags_integer_add (size left right : Nat) : Nat × CCRFlags :=
  let m := 2 ^ (8 * size)
  let s := (left + right) % m
  let carry := decide (m ≤ left + right)
  (s,
    { x := carry,
      n := decide (m / 2 ≤ s),
      z := decide (s = 0),
      v := decide (((m / 2 ≤ left) ↔ (m / 2 ≤ right)) ∧
        ¬ ((m / 2 ≤ s) ↔ (m / 2 ≤ left))),
      c := carry })

/-- The value a width-`size` unsigned operand denotes as a two's-complement
signed integer. -/
def toSignedAt (size v : Nat) : Int :=
  if v < 2 ^ (8 * size) / 2 then (v : Int)
  else (v : Int) - ((2 ^ (8 * size) : Nat) : Int)

/-- The 68K Programmer's Reference definition of the ADD condition codes, as
the claim states them: N is the sign bit of the result, Z means the result
is zero at the operand width, V means the exact signed sum falls outside the
representable signed range, C is the carry out of the unsigned sum, and X
copies C. -/
def reference_add_flags (size left right : Nat) : CCRFlags :=
  let m := 2 ^ (8 * size)
  let s := (left + right) % m
  let sv := toSignedAt size left + toSignedAt size right
  { x := decide (m ≤ left + right),
    n := decide (m / 2 ≤ s),
    z := decide (s = 0),
    v := decide (sv < -((m / 2 : Nat) : Int) ∨ ((m / 2 : Nat) : Int) ≤ sv),
    c := decide (m ≤ left + right) }

/-- The hypotheses under which `decompress_resource` gets past its header
checks and reaches the candidate loop: the resource is marked compressed,
not short-circuited by the retry/disabled guards, at least header-sized,
magic-tagged, has the compression attribute bit, and a known header
version. -/
def ReachesCandidates (flags : DecompressionFlags) (res : Resource) : Prop :=
  res.flags.compressed = true ∧
  (flags.retry = true ∨ res.flags.decompressionFailed = false) ∧
  flags.disabled = false ∧
  16 ≤ res.data.length ∧
  be32 res.data 0 = 0xA89F6572 ∧
  be16 res.data 6 % 2 = 1 ∧
  (be16 res.data 4 = 9 ∨ be16 res.data 4 = 8)

theorem decompress_resource_reaches (env : DecompEnv)
    (flags : DecompressionFlags) (res : Resource)
    (h : ReachesCandidates flags res) :
    decompress_resource env flags res =
      (if buildCandidates env flags
            (hdrDcmpResourceId (be16 res.data 4) res.data) = [] then
        (some "no decompressors are available for this resource", res)
      else
        match tryCandidates env.attempts
            (buildCandidates env flags
              (hdrDcmpResourceId (be16 res.data 4) res.data)) with
        | Except.error e => (some e, res)
        | Except.ok newData =>
            (none, { res with
                      data := newData,
                      flags := { res.flags with
                                  compressed := false,
                                  decompressed := true } })) := by
  obtain ⟨h1, h2, h3, h4, h5, h6, h7⟩ := h
  have e1 : ¬ res.flags.compressed = false := by simp [h1]
  have e2 : ¬ (flags.retry = false ∧ res.flags.decompressionFailed = true) := by
    rcases h2 with h | h <;> simp [h]
  have e3 : ¬ flags.disabled = true := by simp [h3]
  have e4 : ¬ res.data.length < 16 := by omega
  have e5 : ¬ ¬ be32 res.data 0 = 0xA89F6572 := by simp [h5]
  have e6 : ¬ be16 res.data 6 % 2 = 0 := by omega
  have e7 : ¬ (¬ be16 res.data 4 = 9 ∧ ¬ be16 res.data 4 = 8) := by
    rcases h7 with h | h <;> simp [h]
  simp only [decompress_resource, if_neg e1, if_neg e2, if_neg e3, if_neg e4,
    if_neg e5, if_neg e6, if_neg e7]

theorem tryCandidates_error_means_all_failed
    (attempts : Candidate → Except String (List Nat))
    (cands : List Candidate) (e : String)
    (h : tryCandidates attempts cands = Except.error e) :
    e = "no decompressor succeeded" ∧
      ∀ c ∈ cands, ∃ msg, attempts c = Except.error msg := by
  induction cands with
  | nil =>
      refine ⟨?_, by simp⟩
      simpa [tryCandidates] using h.symm
  | cons c rest ih =>
      rcases hc : attempts c with msg | d
      · have hrest : tryCandidates attempts rest = Except.error e := by
          simpa [tryCandidates, hc] using h
        obtain ⟨hmsg, hall⟩ := ih hrest
        refine ⟨hmsg, ?_⟩
        intro x hx
        rcases List.mem_cons.mp hx with hx | hx
        · exact ⟨msg, hx ▸ hc⟩
        · exact hall x hx
      · simp [tryCandidates, hc] at h

theorem tryCandidates_all_failed_means_error
    (attempts : Candidate → Except String (List Nat))
    (cands : List Candidate)
    (h : ∀ c ∈ cands, ∃ msg, attempts c = Except.error msg) :
    tryCandidates attempts cands = Except.error "no decompressor succeeded" := by
  induction cands with
  | nil => rfl
  | cons c rest ih =>
      obtain ⟨msg, hmsg⟩ := h c (List.mem_cons_self c rest)
      have := ih (fun x hx => h x (List.mem_cons_of_mem c hx))
      simp [tryCandidates, hmsg, this]

/-- Claim C10: whenever `decompress_resource` propagates an exception, the
resource passed in is unchanged — its data bytes and its flags hold their
original values; the resource is mutated only on a normal return. -/
theorem decompress_error_preserves_resource (env : DecompEnv)
    (flags : DecompressionFlags) (res : Resource) (e : String)
    (h : (decompress_resource env flags res).1 = some e) :
    (decompress_resource env flags res).2 = res := by
  unfold decompress_resource at h ⊢
  split_ifs at h ⊢
  any_goals rfl
  rcases htry : tryCandidates env.attempts (buildCandidates env flags
      (hdrDcmpResourceId (be16 res.data 4) res.data)) with msg | d <;>
    simp [htry] at h ⊢

/-- Concrete fixture: an environment whose every decompression attempt fails
with the message "boom", no context file, and only the system dcmp binary
available. -/
def envBoom : DecompEnv :=
  { ctx := none,
    systemDcmpAvailable := true,
    systemNcmpAvailable := false,
    attempts := fun _ => Except.error "boom" }

/-- Concrete fixture: all decompression flag bits clear. -/
def dflagsNone : DecompressionFlags :=
  { retry := false, disabled := false, skipFileDcmp := false,
    skipFileNcmp := false, skipInternal := false,
    skipSystemDcmp := false, skipSystemNcmp := false }

/-- Concrete fixture: a compressed resource with a valid version-8 header
naming dcmp id 4 (so the internal implementation is not a candidate). -/
def resV8 : Resource :=
  { flags := { compressed := true, decompressionFailed := false,
               decompressed := false },
    data := [0xA8, 0x9F, 0x65, 0x72, 0, 8, 0, 1, 0, 0, 0, 0, 0, 0, 0, 4] }

theorem decompress_error_preserves_resource_witness :
    (decompress_resource envBoom dflagsNone resV8).1 =
        some "no decompressor succeeded" ∧
      (decompress_resource envBoom dflagsNone resV8).2 = resV8 :=
  ⟨by decide,
    decompress_error_preserves_resource envBoom dflagsNone resV8
      "no decompressor succeeded" (by decide)⟩

/-- Counterexample to claim C2 as stated: a resource marked compressed with
16 data bytes whose first four bytes are not A8 9F 65 72, on which
`decompress_resource` does NOT clear the compressed flag, because the
DISABLED bit of `decompress_flags` makes the function return before the
magic check. -/
def resZeros : Resource :=
  { flags := { compressed := true, decompressionFailed := false,
               decompressed := false },
    data := List.replicate 16 0 }

theorem decompress_bad_magic_clears_flag_cex :
    resZeros.flags.compressed = true ∧
      16 ≤ resZeros.data.length ∧
      ¬ be32 resZeros.data 0 = 0xA89F6572 ∧
      decompress_resource envBoom { dflagsNone with disabled := true }
          resZeros = (none, resZeros) ∧
      ((decompress_resource envBoom { dflagsNone with disabled := true }
          resZeros).2).flags.compressed = true := by
  refine ⟨rfl, by decide, by decide, by decide, by decide⟩

/-- Claim C2 (amended): provided decompression is not globally disabled and
the resource is not sidelined by a previous failure (without the RETRY
flag), a compressed resource of at least 16 bytes whose first four bytes are
not A8 9F 65 72 has its compressed flag cleared, its data left unchanged,
and no error is raised. -/
theorem decompress_bad_magic_clears_flag (env : DecompEnv)
    (flags : DecompressionFlags) (res : Resource)
    (hcomp : res.flags.compressed = true)
    (hretry : flags.retry = true ∨ res.flags.decompressionFailed = false)
    (hdis : flags.disabled = false)
    (hlen : 16 ≤ res.data.length)
    (hmagic : ¬ be32 res.data 0 = 0xA89F6572) :
    decompress_resource env flags res =
      (none, { res with flags := { res.flags with compressed := false } }) := by
  have e1 : ¬ res.flags.compressed = false := by simp [hcomp]
  have e2 : ¬ (flags.retry = false ∧ res.flags.decompressionFailed = true) := by
    rcases hretry with h | h <;> simp [h]
  have e3 : ¬ flags.disabled = true := by simp [hdis]
  have e4 : ¬ res.data.length < 16 := by omega
  simp only [decompress_resource, if_neg e1, if_neg e2, if_neg e3, if_neg e4,
    if_pos hmagic]

theorem decompress_bad_magic_clears_flag_witness :
    decompress_resource envBoom dflagsNone resZeros =
      (none, { resZeros with
                flags := { resZeros.flags with compressed := false } }) :=
  decompress_bad_magic_clears_flag envBoom dflagsNone resZeros rfl
    (Or.inr rfl) rfl (by decide) (by decide)

/-- Counterexample to claim C1 as stated: with one candidate whose attempt
fails with "boom", `decompress_resource` surfaces the fresh error
"no decompressor succeeded", not the last attempt's error. -/
theorem decompress_candidate_fallback_cex :
    envBoom.attempts Candidate.systemDcmp = Except.error "boom" ∧
      buildCandidates envBoom dflagsNone 4 = [Candidate.systemDcmp] ∧
      decompress_resource envBoom dflagsNone resV8 =
        (some "no decompressor succeeded", resV8) ∧
      ¬ ("no decompressor succeeded" = "boom") := by
  refine ⟨rfl, by decide, by decide, by decide⟩

/-- Claim C1 (amended): if one candidate's attempt fails with any error the
shim proceeds to the next candidate; it raises an error only when every
candidate has failed, and the error it surfaces is a newly constructed
generic one ("no decompressor succeeded"), not the last attempt's error. -/
theorem decompress_candidate_fallback :
    (∀ (attempts : Candidate → Except String (List Nat)) (c : Candidate)
        (rest : List Candidate) (e : String),
      attempts c = Except.error e →
        tryCandidates attempts (c :: rest) = tryCandidates attempts rest) ∧
    (∀ (attempts : Candidate → Except String (List Nat))
        (cands : List Candidate) (e : String),
      tryCandidates attempts cands = Except.error e →
        e = "no decompressor succeeded" ∧
          ∀ c ∈ cands, ∃ msg, attempts c = Except.error msg) ∧
    (∀ (env : DecompEnv) (flags : DecompressionFlags) (res : Resource),
      ReachesCandidates flags res →
      ¬ buildCandidates env flags
          (hdrDcmpResourceId (be16 res.data 4) res.data) = [] →
      (∀ c ∈ buildCandidates env flags
          (hdrDcmpResourceId (be16 res.data 4) res.data),
        ∃ msg, env.attempts c = Except.error msg) →
      decompress_resource env flags res =
        (some "no decompressor succeeded", res)) := by
  refine ⟨?_, ?_, ?_⟩
  · intro attempts c rest e h
    simp [tryCandidates, h]
  · intro attempts cands e h
    exact tryCandidates_error_means_all_failed attempts cands e h
  · intro env flags res hreach hne hall
    rw [decompress_resource_reaches env flags res hreach, if_neg hne,
      tryCandidates_all_failed_means_error env.attempts _ hall]

theorem decompress_candidate_fallback_witness :
    decompress_resource envBoom dflagsNone resV8 =
      (some "no decompressor succeeded", resV8) :=
  decompress_candidate_fallback.2.2 envBoom dflagsNone resV8
    (by refine ⟨rfl, Or.inr rfl, rfl, by decide, by decide, by decide,
      Or.inr (by decide)⟩)
    (by decide)
    (fun c _ => ⟨"boom", rfl⟩)

/-- Whether the caller passed a context ResourceFile containing a dcmp
resource with the requested id. -/
def fileDcmpAvailable (env : DecompEnv) : Bool :=
  match env.ctx with
  | some fc => fc.hasDcmp
  | none => false

/-- Whether the caller passed a context ResourceFile containing an ncmp
resource with the requested id. -/
def fileNcmpAvailable (env : DecompEnv) : Bool :=
  match env.ctx with
  | some fc => fc.hasNcmp
  | none => false

theorem if_skip_append {α : Type} (skip avail : Bool) (acc : List α) (x : α) :
    (if skip = true then acc else if avail = true then acc ++ [x] else acc) =
      acc ++ (if avail = true ∧ skip = false then [x] else []) := by
  cases skip <;> cases avail <;> simp

theorem if_skip_cond_append {α : Type} (skip : Bool) (c : Prop)
    [Decidable c] (acc : List α) (x : α) :
    (if skip = true then acc else if c then acc ++ [x] else acc) =
      acc ++ (if c ∧ skip = false then [x] else []) := by
  cases skip
  · split_ifs <;> simp_all
  · simp

/-- Claim C4: the candidate list is built in exactly the priority order
file-dcmp, file-ncmp, internal (ids 0..3 only), system-dcmp, system-ncmp,
with each category present exactly when it is obtainable and its skip flag
is clear; and when the list comes out empty the function fails with the
"no decompressors are available" error. -/
theorem decompress_candidate_priority :
    (∀ (env : DecompEnv) (flags : DecompressionFlags) (rid : Int),
      buildCandidates env flags rid =
        (if fileDcmpAvailable env = true ∧ flags.skipFileDcmp = false then
          [Candidate.fileDcmp] else []) ++
        (if fileNcmpAvailable env = true ∧ flags.skipFileNcmp = false then
          [Candidate.fileNcmp] else []) ++
        (if (0 ≤ rid ∧ rid ≤ 3) ∧ flags.skipInternal = false then
          [Candidate.internal] else []) ++
        (if env.systemDcmpAvailable = true ∧ flags.skipSystemDcmp = false then
          [Candidate.systemDcmp] else []) ++
        (if env.systemNcmpAvailable = true ∧ flags.skipSystemNcmp = false then
          [Candidate.systemNcmp] else [])) ∧
    (∀ (env : DecompEnv) (flags : DecompressionFlags) (res : Resource),
      ReachesCandidates flags res →
      buildCandidates env flags
          (hdrDcmpResourceId (be16 res.data 4) res.data) = [] →
      decompress_resource env flags res =
        (some "no decompressors are available for this resource", res)) := by
  constructor
  · intro env flags rid
    obtain ⟨ctx, sd, sn, att⟩ := env
    cases ctx with
    | none =>
        simp only [buildCandidates, fileDcmpAvailable, fileNcmpAvailable,
          if_skip_append, if_skip_cond_append]
        simp [List.append_assoc]
    | some fc =>
        simp only [buildCandidates, fileDcmpAvailable, fileNcmpAvailable,
          if_skip_append, if_skip_cond_append]
        simp [List.append_assoc]
  · intro env flags res hreach hempty
    rw [decompress_resource_reaches env flags res hreach, if_pos hempty]

theorem decompress_candidate_priority_witness :
    buildCandidates envBoom dflagsNone 4 =
        (if fileDcmpAvailable envBoom = true ∧ dflagsNone.skipFileDcmp = false
          then [Candidate.fileDcmp] else []) ++
        (if fileNcmpAvailable envBoom = true ∧ dflagsNone.skipFileNcmp = false
          then [Candidate.fileNcmp] else []) ++
        (if ((0 : Int) ≤ 4 ∧ (4 : Int) ≤ 3) ∧ dflagsNone.skipInternal = false
          then [Candidate.internal] else []) ++
        (if envBoom.systemDcmpAvailable = true ∧
            dflagsNone.skipSystemDcmp = false
          then [Candidate.systemDcmp] else []) ++
        (if envBoom.systemNcmpAvailable = true ∧
            dflagsNone.skipSystemNcmp = false
          then [Candidate.systemNcmp] else []) ∧
    decompress_resource envBoom { dflagsNone with skipSystemDcmp := true }
        resV8 =
      (some "no decompressors are available for this resource", resV8) :=
  ⟨decompress_candidate_priority.1 envBoom dflagsNone 4,
    decompress_candidate_priority.2 envBoom
      { dflagsNone with skipSystemDcmp := true } resV8
      ⟨rfl, Or.inr rfl, rfl, by decide, by decide, by decide,
        Or.inr (by decide)⟩
      (by decide)⟩

theorem write_u16b_out (m : Nat → Nat) (a v x : Nat)
    (h1 : ¬ x = a) (h2 : ¬ x = a + 1) : write_u16b m a v x = m x := by
  simp [write_u16b, h1, h2]

theorem write_u32b_out (m : Nat → Nat) (a v x : Nat)
    (h1 : ¬ x = a) (h2 : ¬ x = a + 1) (h3 : ¬ x = a + 2) (h4 : ¬ x = a + 3) :
    write_u32b m a v x = m x := by
  simp [write_u32b, h1, h2, h3, h4]

theorem read_u16b_write_u16b (m : Nat → Nat) (a v : Nat) (hv : v < 2 ^ 16) :
    read_u16b (write_u16b m a v) a = v := by
  unfold read_u16b write_u16b
  rw [if_pos rfl, if_neg (by omega), if_pos rfl]
  omega

theorem read_u16b_write_u16b_away (m : Nat → Nat) (a v addr : Nat)
    (h : addr + 1 < a ∨ a + 1 < addr) :
    read_u16b (write_u16b m a v) addr = read_u16b m addr := by
  unfold read_u16b
  rw [write_u16b_out m a v addr (by omega) (by omega),
    write_u16b_out m a v (addr + 1) (by omega) (by omega)]

theorem read_u32b_write_u32b (m : Nat → Nat) (a v : Nat) (hv : v < 2 ^ 32) :
    read_u32b (write_u32b m a v) a = v := by
  unfold read_u32b write_u32b
  rw [if_pos rfl,
    if_neg (by omega), if_pos rfl,
    if_neg (by omega), if_neg (by omega), if_pos rfl,
    if_neg (by omega), if_neg (by omega), if_neg (by omega), if_pos rfl]
  omega

theorem read_u32b_write_u16b_away (m : Nat → Nat) (a v addr : Nat)
    (h : addr + 3 < a ∨ a + 1 < addr) :
    read_u32b (write_u16b m a v) addr = read_u32b m addr := by
  unfold read_u32b
  rw [write_u16b_out m a v addr (by omega) (by omega),
    write_u16b_out m a v (addr + 1) (by omega) (by omega),
    write_u16b_out m a v (addr + 2) (by omega) (by omega),
    write_u16b_out m a v (addr + 3) (by omega) (by omega)]

theorem read_u32b_write_u32b_away (m : Nat → Nat) (a v addr : Nat)
    (h : addr + 3 < a ∨ a + 3 < addr) :
    read_u32b (write_u32b m a v) addr = read_u32b m addr := by
  unfold read_u32b
  rw [write_u32b_out m a v addr (by omega) (by omega) (by omega) (by omega),
    write_u32b_out m a v (addr + 1) (by omega) (by omega) (by omega) (by omega),
    write_u32b_out m a v (addr + 2) (by omega) (by omega) (by omega) (by omega),
    write_u32b_out m a v (addr + 3) (by omega) (by omega) (by omega) (by omega)]

theorem read_u16b_write_u32b_away (m : Nat → Nat) (a v addr : Nat)
    (h : addr + 1 < a ∨ a + 3 < addr) :
    read_u16b (write_u32b m a v) addr = read_u16b m addr := by
  unfold read_u16b
  rw [write_u32b_out m a v addr (by omega) (by omega) (by omega) (by omega),
    write_u32b_out m a v (addr + 1) (by omega) (by omega) (by omega) (by omega)]

/-- Claim C3: for a dcmp resource of length at least 10, execution starts at
offset 0 exactly when bytes 4 through 7 spell ASCII "dcmp", and otherwise at
the big-endian 16-bit value stored at byte offset 2. -/
theorem dcmp_entry_offset_heuristic (data : List Nat)
    (h : 10 ≤ data.length) :
    ((data.drop 4).take 4 = [0x64, 0x63, 0x6D, 0x70] →
      dcmp_entry_offset data = Except.ok 0) ∧
    (¬ (data.drop 4).take 4 = [0x64, 0x63, 0x6D, 0x70] →
      dcmp_entry_offset data =
        Except.ok (data.getD 2 0 * 256 + data.getD 3 0)) := by
  rcases data with _ | ⟨b0, data⟩; · simp at h
  rcases data with _ | ⟨b1, data⟩; · simp at h
  rcases data with _ | ⟨b2, data⟩; · simp at h
  rcases data with _ | ⟨b3, data⟩; · simp at h
  rcases data with _ | ⟨b4, data⟩; · simp at h
  rcases data with _ | ⟨b5, data⟩; · simp at h
  rcases data with _ | ⟨b6, data⟩; · simp at h
  rcases data with _ | ⟨b7, data⟩; · simp at h
  have hni : ¬ (b0 :: b1 :: b2 :: b3 :: b4 :: b5 :: b6 :: b7 ::
      data).length < 10 := by
    simp at h ⊢
    omega
  constructor
  · intro hd
    simp only [List.drop, List.take, List.cons.injEq, and_true] at hd
    obtain ⟨h4, h5, h6, h7⟩ := hd
    unfold dcmp_entry_offset
    rw [if_neg hni, if_pos (by simp [List.getD, h4, h5, h6, h7])]
  · intro hd
    simp only [List.drop, List.take, List.cons.injEq, and_true] at hd
    unfold dcmp_entry_offset
    rw [if_neg hni, if_neg (by simpa [List.getD] using hd)]
    simp [be16, List.getD]

theorem dcmp_entry_offset_heuristic_witness :
    dcmp_entry_offset [0, 0, 0, 5, 0x64, 0x63, 0x6D, 0x70, 0, 0] =
        Except.ok 0 ∧
      dcmp_entry_offset [0, 0, 1, 2, 9, 9, 9, 9, 0, 0] = Except.ok 258 :=
  ⟨(dcmp_entry_offset_heuristic [0, 0, 0, 5, 0x64, 0x63, 0x6D, 0x70, 0, 0]
      (by decide)).1 (by decide),
    (dcmp_entry_offset_heuristic [0, 0, 1, 2, 9, 9, 9, 9, 0, 0]
      (by decide)).2 (by decide)⟩

/-- Claim C5: on trap 0x2E (BlockMove, reached here through the A-line
opcode 0xA02E), the shim's syscall handler copies exactly D0 bytes from the
address in A0 to the address in A1, leaves every other byte alone, and sets
D0 to 0. -/
theorem shim_blockmove_spec (st : M68KShimState) :
    (shim_syscall_handler st 0xA02E).d0 = 0 ∧
    (shim_syscall_handler st 0xA02E).a0 = st.a0 ∧
    (shim_syscall_handler st 0xA02E).a1 = st.a1 ∧
    (∀ x, st.a1 ≤ x ∧ x < st.a1 + st.d0 →
      (shim_syscall_handler st 0xA02E).mem x =
        st.mem (st.a0 + (x - st.a1))) ∧
    (∀ x, ¬ (st.a1 ≤ x ∧ x < st.a1 + st.d0) →
      (shim_syscall_handler st 0xA02E).mem x = st.mem x) := by
  have hred : shim_syscall_handler st 0xA02E =
      { st with mem := memcpyBytes st.mem st.a1 st.a0 st.d0, d0 := 0 } := by
    simp only [shim_syscall_handler]
    rw [if_pos (by decide)]
  rw [hred]
  refine ⟨rfl, rfl, rfl, ?_, ?_⟩
  · intro x hx
    simp only [memcpyBytes]
    rw [if_pos hx]
  · intro x hx
    simp only [memcpyBytes]
    rw [if_neg hx]

/-- Concrete fixture for the BlockMove scenario: A0 = 0x200, A1 = 0x300,
D0 = 4 with bytes DE AD BE EF at 0x200. -/
def stBlockMove : M68KShimState :=
  { d0 := 4, a0 := 0x200, a1 := 0x300,
    mem := fun x =>
      if x = 0x200 then 0xDE else if x = 0x201 then 0xAD
      else if x = 0x202 then 0xBE else if x = 0x203 then 0xEF else 0,
    trapStubs := [], nextAllocAddr := 0x1000 }

theorem shim_blockmove_spec_witness :
    (shim_syscall_handler stBlockMove 0xA02E).d0 = 0 ∧
      (shim_syscall_handler stBlockMove 0xA02E).mem 0x300 = 0xDE ∧
      (shim_syscall_handler stBlockMove 0xA02E).mem 0x301 = 0xAD ∧
      (shim_syscall_handler stBlockMove 0xA02E).mem 0x302 = 0xBE ∧
      (shim_syscall_handler stBlockMove 0xA02E).mem 0x303 = 0xEF := by
  obtain ⟨hd, _, _, hin, _⟩ := shim_blockmove_spec stBlockMove
  refine ⟨hd, ?_, ?_, ?_, ?_⟩
  · rw [hin 0x300 (by decide)]
    decide
  · rw [hin 0x301 (by decide)]
    decide
  · rw [hin 0x302 (by decide)]
    decide
  · rw [hin 0x303 (by decide)]
    decide

theorem lookupStub_preserved (st2 : M68KShimState) (opcode2 k a : Nat)
    (h2 : lookupStub st2.trapStubs k = some a) :
    lookupStub (shim_syscall_handler st2 opcode2).trapStubs k = some a := by
  simp only [shim_syscall_handler]
  by_cases hb : (if ¬ opcode2 &&& 0x0800 = 0 then opcode2 &&& 0x0BFF
      else opcode2 &&& 0x00FF) = 0x2E
  · rw [if_pos hb]
    exact h2
  · rw [if_neg hb]
    by_cases hg : (if ¬ opcode2 &&& 0x0800 = 0 then opcode2 &&& 0x0BFF
        else opcode2 &&& 0x00FF) = 0x46
    · rw [if_pos hg]
      rcases hl : lookupStub st2.trapStubs
          (adjustTrapNumber (st2.d0 &&& 0xFFFF)) with _ | addr
      · simp only [hl]
        show lookupStub ((adjustTrapNumber (st2.d0 &&& 0xFFFF),
          st2.nextAllocAddr) :: st2.trapStubs) k = some a
        by_cases hk : adjustTrapNumber (st2.d0 &&& 0xFFFF) = k
        · rw [hk] at hl
          rw [h2] at hl
          cases hl
        · show (if adjustTrapNumber (st2.d0 &&& 0xFFFF) = k then
              some st2.nextAllocAddr else lookupStub st2.trapStubs k) = some a
          rw [if_neg hk]
          exact h2
      · simp only [hl]
        exact h2
    · rw [if_neg hg]
      exact h2

theorem trapStubOpcode_lt (d0 : Nat) :
    0xA000 ||| adjustTrapNumber (d0 &&& 0xFFFF) < 2 ^ 16 := by
  have h1 : d0 &&& 0xFFFF < 2 ^ 16 :=
    Nat.lt_of_le_of_lt Nat.and_le_right (by norm_num)
  have h2 : adjustTrapNumber (d0 &&& 0xFFFF) < 2 ^ 16 := by
    unfold adjustTrapNumber
    split_ifs
    · exact Nat.or_lt_two_pow h1 (by norm_num)
    · exact h1
  exact Nat.or_lt_two_pow (by norm_num) h2

/-- Claim C6: on trap 0x46 (GetTrapAddress, reached through opcode 0xA046),
the handler returns in A0 the address of a freshly allocated 4-byte stub
holding the A-trap opcode for the requested trap followed by the RTS opcode
0x4E75, records it in the per-trap cache, and any later request finding the
cache populated returns the same address without allocating; cache entries
survive every handler invocation. -/
theorem shim_gettrapaddress_spec (st : M68KShimState)
    (h : lookupStub st.trapStubs
      (adjustTrapNumber (st.d0 &&& 0xFFFF)) = none) :
    (shim_syscall_handler st 0xA046).a0 = st.nextAllocAddr ∧
    (shim_syscall_handler st 0xA046).d0 = st.d0 ∧
    read_u16b (shim_syscall_handler st 0xA046).mem
        (shim_syscall_handler st 0xA046).a0 =
      (0xA000 ||| adjustTrapNumber (st.d0 &&& 0xFFFF)) ∧
    read_u16b (shim_syscall_handler st 0xA046).mem
        ((shim_syscall_handler st 0xA046).a0 + 2) = 0x4E75 ∧
    lookupStub (shim_syscall_handler st 0xA046).trapStubs
        (adjustTrapNumber (st.d0 &&& 0xFFFF)) =
      some (shim_syscall_handler st 0xA046).a0 ∧
    (∀ (st2 : M68KShimState) (a : Nat),
      lookupStub st2.trapStubs (adjustTrapNumber (st2.d0 &&& 0xFFFF)) =
          some a →
        (shim_syscall_handler st2 0xA046).a0 = a ∧
        (shim_syscall_handler st2 0xA046).trapStubs = st2.trapStubs ∧
        (shim_syscall_handler st2 0xA046).nextAllocAddr =
          st2.nextAllocAddr ∧
        (shim_syscall_handler st2 0xA046).mem = st2.mem) ∧
    (∀ (st2 : M68KShimState) (opcode2 k a : Nat),
      lookupStub st2.trapStubs k = some a →
        lookupStub (shim_syscall_handler st2 opcode2).trapStubs k =
          some a) := by
  have hred : shim_syscall_handler st 0xA046 =
      { st with
          mem := write_u16b
            (write_u16b st.mem st.nextAllocAddr
              (0xA000 ||| adjustTrapNumber (st.d0 &&& 0xFFFF)))
            (st.nextAllocAddr + 2) 0x4E75,
          trapStubs := (adjustTrapNumber (st.d0 &&& 0xFFFF),
            st.nextAllocAddr) :: st.trapStubs,
          nextAllocAddr := st.nextAllocAddr + 4,
          a0 := st.nextAllocAddr } := by
    simp only [shim_syscall_handler]
    rw [if_neg (by decide), if_pos (by decide)]
    simp only [h]
  have hcache : ∀ (st2 : M68KShimState) (a : Nat),
      lookupStub st2.trapStubs (adjustTrapNumber (st2.d0 &&& 0xFFFF)) =
          some a →
        (shim_syscall_handler st2 0xA046).a0 = a ∧
        (shim_syscall_handler st2 0xA046).trapStubs = st2.trapStubs ∧
        (shim_syscall_handler st2 0xA046).nextAllocAddr =
          st2.nextAllocAddr ∧
        (shim_syscall_handler st2 0xA046).mem = st2.mem := by
    intro st2 a h2
    have hred2 : shim_syscall_handler st2 0xA046 = { st2 with a0 := a } := by
      simp only [shim_syscall_handler]
      rw [if_neg (by decide), if_pos (by decide)]
      simp only [h2]
    rw [hred2]
    exact ⟨rfl, rfl, rfl, rfl⟩
  refine ⟨?_, ?_, ?_, ?_, ?_, hcache, ?_⟩
  · rw [hred]
  · rw [hred]
  · rw [hred]
    show read_u16b
        (write_u16b
          (write_u16b st.mem st.nextAllocAddr
            (0xA000 ||| adjustTrapNumber (st.d0 &&& 0xFFFF)))
          (st.nextAllocAddr + 2) 0x4E75)
        st.nextAllocAddr =
      (0xA000 ||| adjustTrapNumber (st.d0 &&& 0xFFFF))
    rw [read_u16b_write_u16b_away _ _ _ _ (by omega),
      read_u16b_write_u16b _ _ _ (trapStubOpcode_lt st.d0)]
  · rw [hred]
    show read_u16b
        (write_u16b
          (write_u16b st.mem st.nextAllocAddr
            (0xA000 ||| adjustTrapNumber (st.d0 &&& 0xFFFF)))
          (st.nextAllocAddr + 2) 0x4E75)
        (st.nextAllocAddr + 2) = 0x4E75
    rw [read_u16b_write_u16b _ _ _ (by norm_num)]
  · rw [hred]
    show (if adjustTrapNumber (st.d0 &&& 0xFFFF) =
          adjustTrapNumber (st.d0 &&& 0xFFFF) then
        some st.nextAllocAddr else
        lookupStub st.trapStubs (adjustTrapNumber (st.d0 &&& 0xFFFF))) =
      some st.nextAllocAddr
    rw [if_pos rfl]
  · intro st2 opcode2 k a h2
    exact lookupStub_preserved st2 opcode2 k a h2

/-- Concrete fixture for the GetTrapAddress scenario: an empty stub cache,
requested trap number 0xA9F0 in D0, and the bump allocator at 0x2000. -/
def stGetTrap : M68KShimState :=
  { d0 := 0xA9F0, a0 := 0, a1 := 0, mem := fun _ => 0,
    trapStubs := [], nextAllocAddr := 0x2000 }

theorem shim_gettrapaddress_spec_witness :
    (shim_syscall_handler stGetTrap 0xA046).a0 = 0x2000 ∧
      read_u16b (shim_syscall_handler stGetTrap 0xA046).mem 0x2000 =
        (0xA000 ||| adjustTrapNumber (0xA9F0 &&& 0xFFFF)) ∧
      read_u16b (shim_syscall_handler stGetTrap 0xA046).mem 0x2002 = 0x4E75 ∧
      (shim_syscall_handler (shim_syscall_handler stGetTrap 0xA046)
          0xA046).a0 = 0x2000 := by
  obtain ⟨h0, hd, h1, h2, h3, hcache, hpersist⟩ :=
    shim_gettrapaddress_spec stGetTrap (by decide)
  refine ⟨h0, ?_, ?_, ?_⟩
  · rw [h0] at h1
    exact h1
  · rw [h0] at h2
    exact h2
  · have := (hcache (shim_syscall_handler stGetTrap 0xA046) 0x2000
      (by decide)).1
    rw [this]

/-- Counterexample to claim C7 as stated: opcode 0xA42E is an OS trap (bit
11 clear) whose bits 9..8 are zero, yet the handler computes flag value 2
(it reads bits 10..9). -/
theorem decode_a_trap_cex :
    (0xA42E : Nat) &&& 0x0800 = 0 ∧
      (decode_a_trap 0xA42E).osFlags = 2 ∧
      (0xA42E : Nat) / 256 % 4 = 0 ∧
      ¬ (decode_a_trap 0xA42E).osFlags = (0xA42E : Nat) / 256 % 4 := by
  refine ⟨by decide, by decide, by decide, by decide⟩

/-- Claim C7 (amended): for every 16-bit A-line opcode, if bit 11 is set the
trap is a toolbox trap whose number is opcode & 0x0BFF (the low 10 bits plus
bit 11) with the auto-pop flag taken from bit 10; otherwise it is an OS trap
whose number is opcode & 0x00FF with the flags taken from bits 10..9 of the
opcode. -/
theorem decode_a_trap_spec (opcode : Nat) (h : opcode < 65536) :
    (opcode / 2048 % 2 = 1 →
      (decode_a_trap opcode).number = opcode &&& 0x0BFF ∧
      (decode_a_trap opcode).autoPop = decide (opcode / 1024 % 2 = 1) ∧
      (decode_a_trap opcode).osFlags = 0) ∧
    (opcode / 2048 % 2 = 0 →
      (decode_a_trap opcode).number = opcode % 256 ∧
      (decode_a_trap opcode).autoPop = false ∧
      (decode_a_trap opcode).osFlags = opcode / 512 % 4) := by
  have hand : ∀ i : Nat, opcode &&& 2 ^ i = opcode / 2 ^ i % 2 * 2 ^ i := by
    intro i
    rw [Nat.and_two_pow]
    rcases htb : opcode.testBit i
    · have ht : decide (opcode / 2 ^ i % 2 = 1) = false := by
        rw [← Nat.testBit_to_div_mod, htb]
      have h2 : ¬ opcode / 2 ^ i % 2 = 1 := of_decide_eq_false ht
      have h3 : opcode / 2 ^ i % 2 = 0 := by omega
      simp [h3]
    · have ht : decide (opcode / 2 ^ i % 2 = 1) = true := by
        rw [← Nat.testBit_to_div_mod, htb]
      have h2 : opcode / 2 ^ i % 2 = 1 := of_decide_eq_true ht
      simp [h2]
  have h0800 : opcode &&& 0x0800 = opcode / 2048 % 2 * 2048 := by
    have h11 := hand 11
    norm_num at h11
    exact h11
  have h0400 : opcode &&& 0x0400 = opcode / 1024 % 2 * 1024 := by
    have h10 := hand 10
    norm_num at h10
    exact h10
  constructor
  · intro hbit
    have hcond : ¬ opcode &&& 0x0800 = 0 := by
      rw [h0800, hbit]
      norm_num
    unfold decode_a_trap
    rw [if_pos hcond]
    refine ⟨rfl, ?_, rfl⟩
    show decide (¬ opcode &&& 0x0400 = 0) = decide (opcode / 1024 % 2 = 1)
    rw [decide_eq_decide, h0400]
    omega
  · intro hbit
    have hcond : ¬ ¬ opcode &&& 0x0800 = 0 := by
      simp [h0800, hbit]
    unfold decode_a_trap
    rw [if_neg hcond]
    refine ⟨?_, rfl, ?_⟩
    · show opcode &&& 0x00FF = opcode % 256
      have h8 := Nat.and_pow_two_sub_one_eq_mod opcode 8
      norm_num at h8
      exact h8
    · show opcode >>> 9 &&& 3 = opcode / 512 % 4
      rw [Nat.shiftRight_eq_div_pow]
      have h2 := Nat.and_pow_two_sub_one_eq_mod (opcode / 2 ^ 9) 2
      norm_num at h2 ⊢
      exact h2

theorem decode_a_trap_spec_witness :
    (decode_a_trap 0xA9F0).number = 0xA9F0 &&& 0x0BFF ∧
      (decode_a_trap 0xA02E).number = 0xA02E % 256 ∧
      (decode_a_trap 0xA02E).osFlags = 0xA02E / 512 % 4 :=
  ⟨((decode_a_trap_spec 0xA9F0 (by decide)).1 (by decide)).1,
    ((decode_a_trap_spec 0xA02E (by decide)).2 (by decide)).1,
    ((decode_a_trap_spec 0xA02E (by decide)).2 (by decide)).2.2⟩

/-- Claim C8: before starting a 68K decompressor the shim sets A7 to the
base of the 24-byte activation frame at the top of the stack region and PC
to the code base plus the entry offset; in the frame, the return_addr field
(at the frame base) holds the address of the frame's own reset_opcode field
(frame base + 20), and the reset_opcode field holds 0x4E70. -/
theorem m68k_frame_setup_spec (m0 : Nat → Nat)
    (sa ss hv ia irs oa wa ca eo : Nat)
    (h1 : 24 ≤ ss) (h2 : sa + ss ≤ 2 ^ 32) (h3 : ca + eo < 2 ^ 32) :
    (setup_m68k_decompressor m0 sa ss hv ia irs oa wa ca eo).a7 + 24 =
        sa + ss ∧
      (setup_m68k_decompressor m0 sa ss hv ia irs oa wa ca eo).pc = ca + eo ∧
      read_u32b (setup_m68k_decompressor m0 sa ss hv ia irs oa wa ca eo).mem
          (setup_m68k_decompressor m0 sa ss hv ia irs oa wa ca eo).a7 =
        (setup_m68k_decompressor m0 sa ss hv ia irs oa wa ca eo).a7 + 20 ∧
      read_u16b (setup_m68k_decompressor m0 sa ss hv ia irs oa wa ca eo).mem
          ((setup_m68k_decompressor m0 sa ss hv ia irs oa wa ca eo).a7 + 20) =
        0x4E70 := by
  have ha7 : (setup_m68k_decompressor m0 sa ss hv ia irs oa wa ca eo).a7 =
      sa + ss - 24 := rfl
  have hpc : (setup_m68k_decompressor m0 sa ss hv ia irs oa wa ca eo).pc =
      (ca + eo) % 2 ^ 32 := rfl
  refine ⟨by omega, ?_, ?_, ?_⟩
  · rw [hpc]
    exact Nat.mod_eq_of_lt h3
  · rw [ha7]
    by_cases hver : hv = 9
    · have hmem : (setup_m68k_decompressor m0 sa ss hv ia irs oa wa ca
          eo).mem =
          write_u16b (write_u16b
            (write_u32b (write_u32b (write_u32b (write_u32b
              (write_u32b m0 (sa + ss - 24) ((sa + ss - 24 + 20) % 2 ^ 32))
              (sa + ss - 24 + 16) ((irs - 16) % 2 ^ 32))
              (sa + ss - 24 + 4) (ia % 2 ^ 32))
              (sa + ss - 24 + 8) (oa % 2 ^ 32))
              (sa + ss - 24 + 12) ((ia + 16) % 2 ^ 32))
            (sa + ss - 24 + 20) 0x4E70) (sa + ss - 24 + 22) 0x0000 := by
        simp [setup_m68k_decompressor, hver]
      rw [hmem,
        read_u32b_write_u16b_away _ _ _ _ (by omega),
        read_u32b_write_u16b_away _ _ _ _ (by omega),
        read_u32b_write_u32b_away _ _ _ _ (by omega),
        read_u32b_write_u32b_away _ _ _ _ (by omega),
        read_u32b_write_u32b_away _ _ _ _ (by omega),
        read_u32b_write_u32b_away _ _ _ _ (by omega),
        read_u32b_write_u32b _ _ _ (Nat.mod_lt _ (by norm_num))]
      exact Nat.mod_eq_of_lt (by omega)
    · have hmem : (setup_m68k_decompressor m0 sa ss hv ia irs oa wa ca
          eo).mem =
          write_u16b (write_u16b
            (write_u32b (write_u32b (write_u32b (write_u32b
              (write_u32b m0 (sa + ss - 24) ((sa + ss - 24 + 20) % 2 ^ 32))
              (sa + ss - 24 + 4) ((irs - 16) % 2 ^ 32))
              (sa + ss - 24 + 8) (wa % 2 ^ 32))
              (sa + ss - 24 + 12) (oa % 2 ^ 32))
              (sa + ss - 24 + 16) ((ia + 16) % 2 ^ 32))
            (sa + ss - 24 + 20) 0x4E70) (sa + ss - 24 + 22) 0x0000 := by
        simp [setup_m68k_decompressor, hver]
      rw [hmem,
        read_u32b_write_u16b_away _ _ _ _ (by omega),
        read_u32b_write_u16b_away _ _ _ _ (by omega),
        read_u32b_write_u32b_away _ _ _ _ (by omega),
        read_u32b_write_u32b_away _ _ _ _ (by omega),
        read_u32b_write_u32b_away _ _ _ _ (by omega),
        read_u32b_write_u32b_away _ _ _ _ (by omega),
        read_u32b_write_u32b _ _ _ (Nat.mod_lt _ (by norm_num))]
      exact Nat.mod_eq_of_lt (by omega)
  · rw [ha7]
    by_cases hver : hv = 9
    · have hmem : (setup_m68k_decompressor m0 sa ss hv ia irs oa wa ca
          eo).mem =
          write_u16b (write_u16b
            (write_u32b (write_u32b (write_u32b (write_u32b
              (write_u32b m0 (sa + ss - 24) ((sa + ss - 24 + 20) % 2 ^ 32))
              (sa + ss - 24 + 16) ((irs - 16) % 2 ^ 32))
              (sa + ss - 24 + 4) (ia % 2 ^ 32))
              (sa + ss - 24 + 8) (oa % 2 ^ 32))
              (sa + ss - 24 + 12) ((ia + 16) % 2 ^ 32))
            (sa + ss - 24 + 20) 0x4E70) (sa + ss - 24 + 22) 0x0000 := by
        simp [setup_m68k_decompressor, hver]
      rw [hmem,
        read_u16b_write_u16b_away _ _ _ _ (by omega),
        read_u16b_write_u16b _ _ _ (by norm_num)]
    · have hmem : (setup_m68k_decompressor m0 sa ss hv ia irs oa wa ca
          eo).mem =
          write_u16b (write_u16b
            (write_u32b (write_u32b (write_u32b (write_u32b
              (write_u32b m0 (sa + ss - 24) ((sa + ss - 24 + 20) % 2 ^ 32))
              (sa + ss - 24 + 4) ((irs - 16) % 2 ^ 32))
              (sa + ss - 24 + 8) (wa % 2 ^ 32))
              (sa + ss - 24 + 12) (oa % 2 ^ 32))
              (sa + ss - 24 + 16) ((ia + 16) % 2 ^ 32))
            (sa + ss - 24 + 20) 0x4E70) (sa + ss - 24 + 22) 0x0000 := by
        simp [setup_m68k_decompressor, hver]
      rw [hmem,
        read_u16b_write_u16b_away _ _ _ _ (by omega),
        read_u16b_write_u16b _ _ _ (by norm_num)]

theorem m68k_frame_setup_spec_witness :
    (setup_m68k_decompressor (fun _ => 0) 0x10000000 0x4000 9 0xC0000000
          0x110 0x20000000 0x80000000 0xF0000000 2).a7 + 24 =
        0x10000000 + 0x4000 ∧
      (setup_m68k_decompressor (fun _ => 0) 0x10000000 0x4000 9 0xC0000000
          0x110 0x20000000 0x80000000 0xF0000000 2).pc = 0xF0000000 + 2 ∧
      read_u32b (setup_m68k_decompressor (fun _ => 0) 0x10000000 0x4000 9
            0xC0000000 0x110 0x20000000 0x80000000 0xF0000000 2).mem
          (setup_m68k_decompressor (fun _ => 0) 0x10000000 0x4000 9
            0xC0000000 0x110 0x20000000 0x80000000 0xF0000000 2).a7 =
        (setup_m68k_decompressor (fun _ => 0) 0x10000000 0x4000 9 0xC0000000
            0x110 0x20000000 0x80000000 0xF0000000 2).a7 + 20 ∧
      read_u16b (setup_m68k_decompressor (fun _ => 0) 0x10000000 0x4000 9
            0xC0000000 0x110 0x20000000 0x80000000 0xF0000000 2).mem
          ((setup_m68k_decompressor (fun _ => 0) 0x10000000 0x4000 9
            0xC0000000 0x110 0x20000000 0x80000000 0xF0000000 2).a7 + 20) =
        0x4E70 :=
  m68k_frame_setup_spec (fun _ => 0) 0x10000000 0x4000 9 0xC0000000 0x110
    0x20000000 0x80000000 0xF0000000 2 (by norm_num) (by norm_num)
    (by norm_num)

/-- Claim C9: at every operand width the integer-add flag helper computes
exactly the condition codes the 68K Programmer's Reference defines (N = sign
bit of the result, Z = result zero, V = signed overflow, C = carry out,
X = C); in particular at width 2 with operands 0x7FFF and 0x0001 the result
is 0x8000 with N=1, Z=0, V=1, C=0, X=0. -/
theorem ccr_flags_integer_add_matches_reference :
    (∀ (size left right : Nat), 1 ≤ size → left < 2 ^ (8 * size) →
      right < 2 ^ (8 * size) →
        (set_ccr_flags_integer_add size left right).2 =
          reference_add_flags size left right) ∧
    set_ccr_flags_integer_add 2 0x7FFF 0x0001 =
      (0x8000, { x := false, n := true, z := false, v := true,
                 c := false }) := by
  constructor
  · intro size l r hsz hl hr
    have hm : (2 : Nat) ^ (8 * size) = 2 * 2 ^ (8 * size - 1) := by
      rw [← pow_succ']
      congr 1
      omega
    have hk1 : 1 ≤ 2 ^ (8 * size - 1) := Nat.one_le_two_pow
    set k := 2 ^ (8 * size - 1) with hkdef
    simp only [set_ccr_flags_integer_add, reference_add_flags, toSignedAt,
      CCRFlags.mk.injEq]
    refine ⟨trivial, trivial, trivial, ?_, trivial⟩
    rw [decide_eq_decide]
    rw [hm] at hl hr ⊢
    have h2k : 2 * k / 2 = k := by omega
    rw [h2k]
    rcases Nat.lt_or_ge (l + r) (2 * k) with hlr | hlr
    · have hs : (l + r) % (2 * k) = l + r := Nat.mod_eq_of_lt hlr
      rw [hs]
      split_ifs <;> omega
    · have hs : (l + r) % (2 * k) = l + r - 2 * k := by
        have hlt : l + r - 2 * k < 2 * k := by omega
        rw [Nat.mod_eq_sub_mod hlr, Nat.mod_eq_of_lt hlt]
      rw [hs]
      split_ifs <;> omega
  · decide

theorem ccr_flags_integer_add_matches_reference_witness :
    (set_ccr_flags_integer_add 1 0x80 0x80).2 =
      reference_add_flags 1 0x80 0x80 :=
  ccr_flags_integer_add_matches_reference.1 1 0x80 0x80 (by norm_num)
    (by norm_num) (by norm_num)

end ResourceDasm
